import Mathlib

/-!
Shallow embedding of the shape/tensor core of the feedforward-neural-network
repository: the overflow-checked multiply/product utilities
(`fnn::util::multiply`, `fnn::util::product` in `src/util/math.cpp`), the
N-dimensional `fnn::Tensor` (constructor, `numel`, `shape`, `reshape`) and the
2-dimensional `fnn::Tensor2D` (`src/tensor2D.cpp`), together with proofs of the
spec's shape-algebra properties.

Modelling conventions:
* `std::size_t` values are natural numbers below `2 ^ 64`; unsigned C++
  multiplication is `(a * b) % 2 ^ 64`.
* `int` is a 32-bit two's-complement integer; C++ `/` on `int` truncates
  toward zero, which is `Int.tdiv`.  Signed overflow (undefined behaviour in
  C++) is modelled as two's-complement wrap-around.
* A thrown `std::length_error` / `std::invalid_argument` is an `Except.error`
  carrying the error kind and the `what` message from the source.  Statements
  left before a throw are not executed, so functions that mutate `*this` are
  modelled as returning the pair (thrown-or-value, post-state), where the
  post-state on a throw is the receiver unchanged exactly when the source
  throws before its first mutation.
* The scalar element type (`double` in the source) is modelled by `ℚ`: the
  operations verified here only zero-initialize and copy buffer elements and
  never perform floating-point arithmetic, so the values are exact.
-/

namespace fnn

/-- Scalar models the C++ `double` element type; only zero values and
whole-buffer copies occur in the operations verified here. -/
abbrev Scalar : Type := ℚ

/-- The sequence-of-dimension-sizes type `fnn::Dims = std::vector<std::size_t>`. -/
abbrev Dims : Type := List ℕ

/-- `std::numeric_limits<std::size_t>::max()` on the modelled 64-bit platform. -/
def SIZE_MAX : ℕ := 2 ^ 64 - 1

/-- `std::numeric_limits<int>::max()` on the modelled platform (32-bit int). -/
def INT_MAX : ℤ := 2 ^ 31 - 1

/-- `std::numeric_limits<int>::min()` on the modelled platform (32-bit int). -/
def INT_MIN : ℤ := -(2 ^ 31)

/-- The exceptions thrown by the tensor core: `std::length_error` and
`std::invalid_argument`, each carrying its `what` message. -/
inductive FnnError where
  | lengthError (what : String)
  | invalidArgument (what : String)
deriving DecidableEq, Repr

namespace util

/-- Embeds `fnn::util::multiply(std::size_t a, std::size_t b, const char* what)`:
throws `length_error(what)` when `a != 0 && b > SIZE_MAX / a`, otherwise
returns the unsigned (mod `2 ^ 64`) product `a * b`. -/
def multiply (a b : ℕ) (what : String) : Except FnnError ℕ :=
  if a ≠ 0 ∧ SIZE_MAX / a < b then .error (.lengthError what)
  else .ok (a * b % 2 ^ 64)

/-- Reduce an integer to the value a 32-bit two's-complement `int` holds,
modelling the (undefined-behaviour) wrap-around of signed overflow. -/
def wrapInt (x : ℤ) : ℤ := (x + 2 ^ 31) % 2 ^ 32 - 2 ^ 31

/-- Embeds `fnn::util::multiply(int a, int b, const char* what)`: throws
`length_error(what)` when `a != 0 && b > INT_MAX / a` (C++ `int` division
truncates toward zero, i.e. `Int.tdiv`), otherwise returns `a * b` as an
`int`. -/
def multiplyInt (a b : ℤ) (what : String) : Except FnnError ℤ :=
  if a ≠ 0 ∧ Int.tdiv INT_MAX a < b then .error (.lengthError what)
  else .ok (wrapInt (a * b))

/-- Embeds `fnn::util::product(const std::vector<std::size_t> dims, const char* what)`:
left-to-right fold of the checked multiply over `dims`, starting from 1. -/
def product (dims : List ℕ) (what : String) : Except FnnError ℕ :=
  dims.foldlM (fun p d => multiply p d what) 1

/-- Embeds `fnn::util::product(const std::vector<int>& vec, const char* what)`:
left-to-right fold starting from 1 that throws `invalid_argument(what)` at the
first negative element and otherwise multiplies in the checked `size_t`
multiply after the cast `static_cast<std::size_t>(x)`. -/
def productInt (vec : List ℤ) (what : String) : Except FnnError ℕ :=
  vec.foldlM
    (fun p x =>
      if x < 0 then .error (.invalidArgument what)
      else multiply p x.toNat what) 1

end util

/-- The N-dimensional tensor of `include/fnn/tensor.hpp`: a shape descriptor
`dims_` and a single contiguous buffer `data_` of scalar elements. -/
structure Tensor where
  dims : Dims
  data : List Scalar
deriving DecidableEq, Repr

/-- Embeds the constructor `Tensor::Tensor(Dims dims)`: computes
`util::product(dims_, "Tensor: element count overflows size_t")`
(propagating the overflow throw) and resizes the (initially empty) buffer to
that count, which zero-initializes every element. -/
def Tensor.make (dims : Dims) : Except FnnError Tensor :=
  match util.product dims "Tensor: element count overflows size_t" with
  | .error e => .error e
  | .ok count => .ok { dims := dims, data := List.replicate count 0 }

/-- Embeds `Tensor::numel()`: recomputes
`util::product(dims_, "Tensor::numel overflows size_t")` on every call. -/
def Tensor.numel (t : Tensor) : Except FnnError ℕ :=
  util.product t.dims "Tensor::numel overflows size_t"

/-- Embeds `Tensor::shape()`: returns the dimension list by value. -/
def Tensor.shape (t : Tensor) : Dims := t.dims

/-- Embeds `Tensor::reshape(Dims dims)`.  The result is the pair
(thrown-or-unit, post-state): every throw in the source occurs before the
single mutation `dims_ = std::move(dims)`, so the post-state on a throw is
the receiver unchanged. -/
def Tensor.reshape (t : Tensor) (dims : Dims) : Except FnnError Unit × Tensor :=
  match t.numel with
  | .error e => (.error e, t)
  | .ok old_count =>
    match util.product dims "Tensor::reshape overflows size_t" with
    | .error e => (.error e, t)
    | .ok new_count =>
      if new_count ≠ old_count then
        (.error (.invalidArgument "Tensor::reshape: element count must stay constant"), t)
      else (.ok (), { t with dims := dims })

/-- The `(rows, cols)` pair returned by `Tensor2D::shape()`. -/
structure Shape where
  rows : ℕ
  cols : ℕ
deriving DecidableEq, Repr

/-- The 2-dimensional tensor of `src/tensor2D.cpp`: row/col metadata and a
contiguous buffer of length `rows_ * cols_`. -/
structure Tensor2D where
  rows : ℕ
  cols : ℕ
  data : List Scalar
deriving DecidableEq, Repr

/-- Embeds the constructor `Tensor2D::Tensor2D(rows, cols)`: the member
initializer `data_(rows * cols)` uses the raw (unchecked, mod `2 ^ 64`)
`size_t` multiply and zero-initializes the buffer. -/
def Tensor2D.make (rows cols : ℕ) : Tensor2D :=
  { rows := rows, cols := cols, data := List.replicate (rows * cols % 2 ^ 64) 0 }

/-- Embeds `Tensor2D::zero_fill()`: overwrites every element with zero. -/
def Tensor2D.zero_fill (t : Tensor2D) : Tensor2D :=
  { t with data := List.replicate t.data.length 0 }

/-- Embeds `Tensor2D::reshape(new_rows, new_cols)`: compares the raw
(unchecked, mod `2 ^ 64`) products `rows_ * cols_` and
`new_rows * new_cols`; throws `invalid_argument` on mismatch (before any
mutation), otherwise updates only the row/col metadata. -/
def Tensor2D.reshape (t : Tensor2D) (new_rows new_cols : ℕ) :
    Except FnnError Unit × Tensor2D :=
  if t.rows * t.cols % 2 ^ 64 ≠ new_rows * new_cols % 2 ^ 64 then
    (.error (.invalidArgument "Tensor2D::reshape: element count must stay constant"), t)
  else (.ok (), { t with rows := new_rows, cols := new_cols })

/-- Embeds `Tensor2D::shape()`: returns the `(rows, cols)` pair by value. -/
def Tensor2D.shape (t : Tensor2D) : Shape := { rows := t.rows, cols := t.cols }

/-- The documented `Tensor` class invariant: the buffer length equals the
element count `product(shape)` (observed through `numel`). -/
def Tensor.Wf (t : Tensor) : Prop := t.numel = .ok t.data.length

theorem size_max_lt : SIZE_MAX < 2 ^ 64 := by decide

/-- The unsigned checked multiply, rewritten by its exact mathematical
characterisation: it fails precisely when the true product exceeds
`SIZE_MAX`, and otherwise returns the true product (no wrap occurs). -/
theorem multiply_eq (a b : ℕ) (w : String) :
    util.multiply a b w =
      if SIZE_MAX < a * b then .error (.lengthError w) else .ok (a * b) := by
  unfold util.multiply
  rcases Nat.eq_zero_or_pos a with ha | ha
  · subst ha
    simp [Nat.not_lt.mpr (Nat.zero_le SIZE_MAX)]
  · have hiff : (SIZE_MAX / a < b) ↔ SIZE_MAX < a * b := by
      rw [Nat.div_lt_iff_lt_mul ha, Nat.mul_comm]
    by_cases h : SIZE_MAX < a * b
    · rw [if_pos ⟨Nat.pos_iff_ne_zero.mp ha, hiff.mpr h⟩, if_pos h]
    · rw [if_neg (by rintro ⟨-, hd⟩; exact h (hiff.mp hd)), if_neg h]
      have : a * b < 2 ^ 64 :=
        Nat.lt_of_le_of_lt (Nat.not_lt.mp h) size_max_lt
      rw [Nat.mod_eq_of_lt this]

theorem ok_bind {α β : Type} (x : α) (f : α → Except FnnError β) :
    (Except.ok x >>= f : Except FnnError β) = f x := rfl

theorem error_bind {α β : Type} (e : FnnError) (f : α → Except FnnError β) :
    (Except.error e >>= f : Except FnnError β) = .error e := rfl

/-- Generalised characterisation of the left-to-right checked-multiply fold:
starting from an accumulator `a ≤ SIZE_MAX`, it returns `a` times the true
product when every partial product stays within `SIZE_MAX`, and throws
`length_error` as soon as some partial product exceeds it. -/
theorem foldl_multiply_spec (w : String) (dims : List ℕ) :
    ∀ a : ℕ, a ≤ SIZE_MAX →
      ((∀ n, a * (dims.take n).prod ≤ SIZE_MAX) →
        List.foldlM (fun p d => util.multiply p d w) a dims = .ok (a * dims.prod))
      ∧ ((∃ n, SIZE_MAX < a * (dims.take n).prod) →
        List.foldlM (fun p d => util.multiply p d w) a dims
          = .error (.lengthError w)) := by
  induction dims with
  | nil =>
    intro a ha
    constructor
    · intro _
      simp [List.foldlM]
      rfl
    · rintro ⟨n, hn⟩
      simp at hn
      exact absurd hn (Nat.not_lt.mpr ha)
  | cons d ds ih =>
    intro a ha
    have hstep : List.foldlM (fun p d => util.multiply p d w) a (d :: ds)
        = util.multiply a d w >>=
            fun p => List.foldlM (fun p d => util.multiply p d w) p ds := rfl
    by_cases hd : SIZE_MAX < a * d
    · have hm : util.multiply a d w = .error (.lengthError w) := by
        rw [multiply_eq, if_pos hd]
      constructor
      · intro hall
        have h1 := hall 1
        simp at h1
        exact absurd hd (Nat.not_lt.mpr h1)
      · intro _
        rw [hstep, hm, error_bind]
    · have hle : a * d ≤ SIZE_MAX := Nat.not_lt.mp hd
      have hm : util.multiply a d w = .ok (a * d) := by
        rw [multiply_eq, if_neg hd]
      rw [hstep, hm, ok_bind]
      obtain ⟨ihok, iherr⟩ := ih (a * d) hle
      constructor
      · intro hall
        have h2 : ∀ n, a * d * (ds.take n).prod ≤ SIZE_MAX := by
          intro n
          have := hall (n + 1)
          simpa [Nat.mul_assoc] using this
        rw [ihok h2]
        simp [Nat.mul_assoc]
      · rintro ⟨n, hn⟩
        apply iherr
        cases n with
        | zero =>
          simp at hn
          exact absurd hn (Nat.not_lt.mpr ha)
        | succ m =>
          refine ⟨m, ?_⟩
          simpa [Nat.mul_assoc] using hn

/-- `util.product` succeeds when every partial (prefix) product stays within
`SIZE_MAX`, returning the true mathematical product of the dimensions. -/
theorem product_ok (dims : List ℕ) (w : String)
    (h : ∀ n, (dims.take n).prod ≤ SIZE_MAX) :
    util.product dims w = .ok dims.prod := by
  have hspec := (foldl_multiply_spec w dims 1 (by decide)).1 (by simpa using h)
  unfold util.product
  simpa using hspec

/-- `util.product` throws `length_error(what)` as soon as some partial
(prefix) product exceeds `SIZE_MAX`. -/
theorem product_overflow (dims : List ℕ) (w : String)
    (h : ∃ n, SIZE_MAX < (dims.take n).prod) :
    util.product dims w = .error (.lengthError w) := by
  have hspec := (foldl_multiply_spec w dims 1 (by decide)).2 (by simpa using h)
  unfold util.product
  exact hspec

/-- Exact success characterisation of `util.product`: it returns `p` iff `p`
is the true product of the dimensions and no prefix product overflows.  In
particular the returned value does not depend on the `what` message. -/
theorem product_ok_iff (dims : List ℕ) (w : String) (p : ℕ) :
    util.product dims w = .ok p ↔
      p = dims.prod ∧ ∀ n, (dims.take n).prod ≤ SIZE_MAX := by
  constructor
  · intro h
    by_cases hall : ∀ n, (dims.take n).prod ≤ SIZE_MAX
    · rw [product_ok dims w hall] at h
      injection h with h
      exact ⟨h.symm, hall⟩
    · push_neg at hall
      obtain ⟨n, hn⟩ := hall
      rw [product_overflow dims w ⟨n, hn⟩] at h
      simp at h
  · rintro ⟨rfl, hall⟩
    exact product_ok dims w hall

/-- The signed `product` overload rejects dimension lists containing a
negative entry: the fold throws (`invalid_argument` at the first negative
element, or `length_error` if a partial product overflows before reaching
it). -/
theorem foldl_productInt_neg (w : String) (xs : List ℤ) :
    (∃ x ∈ xs, x < 0) → ∀ a : ℕ,
      ∃ e, List.foldlM
        (fun p x =>
          if x < 0 then Except.error (FnnError.invalidArgument w)
          else util.multiply p x.toNat w) a xs = .error e := by
  induction xs with
  | nil =>
    rintro ⟨x, hx, -⟩
    exact absurd hx (List.not_mem_nil x)
  | cons y ys ih =>
    rintro ⟨x, hx, hneg⟩ a
    have hstep : List.foldlM
        (fun p x =>
          if x < 0 then Except.error (FnnError.invalidArgument w)
          else util.multiply p x.toNat w) a (y :: ys)
        = (if y < 0 then Except.error (FnnError.invalidArgument w)
            else util.multiply a y.toNat w) >>=
            fun p => List.foldlM
              (fun p x =>
                if x < 0 then Except.error (FnnError.invalidArgument w)
                else util.multiply p x.toNat w) p ys := rfl
    by_cases hy : y < 0
    · refine ⟨.invalidArgument w, ?_⟩
      rw [hstep, if_pos hy, error_bind]
    · rw [hstep, if_neg hy]
      cases hm : util.multiply a y.toNat w with
      | error e =>
        exact ⟨e, error_bind e _⟩
      | ok p =>
        have hx' : x ∈ ys := by
          rcases List.mem_cons.mp hx with h1 | h1
          · exact absurd (h1 ▸ hneg) hy
          · exact h1
        obtain ⟨e, he⟩ := ih ⟨x, hx', hneg⟩ p
        exact ⟨e, by rw [ok_bind]; exact he⟩

/-- Unfolding `Tensor.reshape` when both element counts are computed
successfully: the outcome is decided by comparing the two counts. -/
theorem reshape_eq_of_counts (t : Tensor) (d : Dims) (n m : ℕ)
    (h1 : t.numel = .ok n)
    (h2 : util.product d "Tensor::reshape overflows size_t" = .ok m) :
    t.reshape d =
      if m ≠ n then
        (.error (.invalidArgument "Tensor::reshape: element count must stay constant"), t)
      else (.ok (), { t with dims := d }) := by
  unfold Tensor.reshape
  rw [h1, h2]

/-- Inversion for a successful `Tensor.reshape`: the old and new element
counts were computed successfully and agree, and the result replaces the
shape metadata only, keeping the buffer. -/
theorem reshape_ok_inv (t t' : Tensor) (d : Dims)
    (h : t.reshape d = (.ok (), t')) :
    ∃ n, t.numel = .ok n ∧
      util.product d "Tensor::reshape overflows size_t" = .ok n ∧
      t' = { t with dims := d } := by
  cases h1 : t.numel with
  | error e =>
    unfold Tensor.reshape at h
    rw [h1] at h
    simp at h
  | ok n =>
    cases h2 : util.product d "Tensor::reshape overflows size_t" with
    | error e =>
      unfold Tensor.reshape at h
      rw [h1, h2] at h
      simp at h
    | ok m =>
      rw [reshape_eq_of_counts t d n m h1 h2] at h
      by_cases hne : m ≠ n
      · rw [if_pos hne] at h
        simp at h
      · rw [if_neg hne] at h
        push_neg at hne
        subst hne
        refine ⟨m, rfl, rfl, ?_⟩
        have hsnd := congrArg Prod.snd h
        simpa using hsnd.symm

/-- Two's-complement wrap is the identity on values already in the `int`
range. -/
theorem wrapInt_eq (x : ℤ) (h1 : INT_MIN ≤ x) (h2 : x ≤ INT_MAX) :
    util.wrapInt x = x := by
  unfold util.wrapInt
  simp only [INT_MIN, INT_MAX] at h1 h2
  norm_num at h1 h2 ⊢
  omega

/-- `Tensor.reshape` either throws, leaving the tensor unchanged, or succeeds
and replaces the shape metadata only. -/
theorem reshape_snd_cases (t : Tensor) (d : Dims) :
    (t.reshape d).2 = t ∨ t.reshape d = (.ok (), { t with dims := d }) := by
  unfold Tensor.reshape
  split
  · left; rfl
  · split
    · left; rfl
    · split
      · left; rfl
      · right; rfl

/-- Inversion for a successful `Tensor.make`: the element count was computed
without overflow (so no prefix product exceeds `SIZE_MAX`) and the result
carries the requested shape and a zero-initialized buffer of the true
product length. -/
theorem make_ok_inv (dims : Dims) (t : Tensor)
    (h : Tensor.make dims = .ok t) :
    t.dims = dims ∧ t.data = List.replicate dims.prod 0
      ∧ ∀ n, (dims.take n).prod ≤ SIZE_MAX := by
  unfold Tensor.make at h
  cases hp : util.product dims "Tensor: element count overflows size_t" with
  | error e =>
    rw [hp] at h
    have h' : (Except.error e : Except FnnError Tensor) = .ok t := h
    exact Except.noConfusion h'
  | ok c =>
    rw [hp] at h
    obtain ⟨hc, hall⟩ :=
      (product_ok_iff dims "Tensor: element count overflows size_t" c).1 hp
    subst hc
    have h' : Except.ok ({ dims := dims, data := List.replicate dims.prod 0 } : Tensor)
        = .ok t := h
    injection h' with h''
    subst h''
    exact ⟨rfl, rfl, hall⟩

/-- C1: the spec requires `Tensor2D(rows, cols)` and `Tensor2D::reshape` to
fail with an explicit overflow error whenever the mathematical product of the
dimensions exceeds `SIZE_MAX`.  The code instead computes `rows * cols` with
the raw unchecked `size_t` multiply: evaluated at the failing input
`(2 ^ 32, 2 ^ 32)` on the 64-bit platform, the constructor wraps the product
to `0`, allocating an empty buffer with no error, and `reshape` then happily
accepts the new pair `(1, 0)` by comparing wrapped products.  This theorem
evaluates the code at that input, exhibiting the silent wrap the claim (and
the spec's overflow invariant) forbids. -/
theorem claim1_tensor2d_overflow_wraps_silently :
    (Tensor2D.make (2 ^ 32) (2 ^ 32)).data = []
    ∧ (Tensor2D.make (2 ^ 32) (2 ^ 32)).shape
        = { rows := 2 ^ 32, cols := 2 ^ 32 }
    ∧ (Tensor2D.make (2 ^ 32) (2 ^ 32)).reshape 1 0
        = (.ok (), { rows := 1, cols := 0, data := [] }) :=
  ⟨rfl, rfl, rfl⟩

/-- C3: for every tensor `t` and dimension list `d''` whose (successfully
computed) element count differs from `t`'s current element count,
`t.reshape d''` throws `invalid_argument` and leaves the tensor — its shape
and its buffer — unchanged. -/
theorem claim3_reshape_mismatch_fails (t : Tensor) (d'' : Dims) (n m : ℕ)
    (h1 : t.numel = .ok n)
    (h2 : util.product d'' "Tensor::reshape overflows size_t" = .ok m)
    (hne : m ≠ n) :
    t.reshape d'' =
      (.error (.invalidArgument "Tensor::reshape: element count must stay constant"),
        t) := by
  rw [reshape_eq_of_counts t d'' n m h1 h2, if_pos hne]

/-- Witness for C3 at `t = ⟨[2, 3], 6 zeros⟩`, `d'' = [5]`. -/
theorem claim3_witness :
    (⟨[2, 3], List.replicate 6 0⟩ : Tensor).reshape [5]
      = (.error (.invalidArgument "Tensor::reshape: element count must stay constant"),
          ⟨[2, 3], List.replicate 6 0⟩) :=
  claim3_reshape_mismatch_fails ⟨[2, 3], List.replicate 6 0⟩ [5] 6 5 rfl rfl
    (by decide)

/-- C4: for every tensor `t` and dimension list `d'` whose element count
equals `t`'s current element count, `t.reshape d'` succeeds, replaces the
shape metadata with `d'`, and leaves the buffer contents unchanged in flat
order. -/
theorem claim4_reshape_preserves_buffer (t : Tensor) (d' : Dims) (n : ℕ)
    (h1 : t.numel = .ok n)
    (h2 : util.product d' "Tensor::reshape overflows size_t" = .ok n) :
    t.reshape d' = (.ok (), { dims := d', data := t.data }) := by
  rw [reshape_eq_of_counts t d' n n h1 h2, if_neg (fun hne => hne rfl)]

/-- Witness for C4 at `t = ⟨[2, 3], 6 zeros⟩`, `d' = [3, 2]`. -/
theorem claim4_witness :
    (⟨[2, 3], List.replicate 6 0⟩ : Tensor).reshape [3, 2]
      = (.ok (), ⟨[3, 2], List.replicate 6 0⟩) :=
  claim4_reshape_preserves_buffer ⟨[2, 3], List.replicate 6 0⟩ [3, 2] 6 rfl rfl

/-- C10: constructing a `Tensor` with the empty (rank-0) dimension list
succeeds, and the tensor has element count 1 and a buffer holding exactly one
zero-initialized element, because the fold defining `product` starts at 1. -/
theorem claim10_rank0_tensor :
    Tensor.make [] = .ok { dims := [], data := [0] }
    ∧ ({ dims := [], data := [0] } : Tensor).numel = .ok 1
    ∧ ({ dims := [], data := [0] } : Tensor).data = List.replicate 1 0 :=
  ⟨rfl, rfl, rfl⟩

/-- C2: a `Tensor` constructed from a valid (non-overflowing) dimension list
satisfies the invariant buffer length = product(shape) with a
zero-initialized buffer, and the invariant is preserved by every subsequent
operation: `numel` and `shape` are non-mutating (they are functions of the
state in this embedding), and `reshape` preserves it from any well-formed
state whether it succeeds (the buffer is kept and the new count equals the
old) or fails (the post-state is the receiver unchanged). -/
theorem claim2_tensor_invariant :
    (∀ (dims : Dims) (t : Tensor), Tensor.make dims = .ok t →
        t.shape = dims ∧ t.data = List.replicate dims.prod 0 ∧ t.Wf)
    ∧ (∀ t : Tensor, t.Wf → ∀ d : Dims, ((t.reshape d).2).Wf) := by
  constructor
  · intro dims t h
    obtain ⟨hdims, hdata, hall⟩ := make_ok_inv dims t h
    refine ⟨hdims, hdata, ?_⟩
    show t.numel = .ok t.data.length
    unfold Tensor.numel
    rw [hdims, hdata, List.length_replicate]
    exact product_ok dims "Tensor::numel overflows size_t" hall
  · intro t hwf d
    rcases reshape_snd_cases t d with h | h
    · rw [h]; exact hwf
    · obtain ⟨n, hn, hp, -⟩ := reshape_ok_inv t _ d h
      obtain ⟨hnp, hall⟩ :=
        (product_ok_iff d "Tensor::reshape overflows size_t" n).1 hp
      have hlen : n = t.data.length := by
        rw [hwf] at hn
        injection hn with hn
        exact hn.symm
      rw [h]
      show util.product d "Tensor::numel overflows size_t"
        = .ok (({ t with dims := d } : Tensor).data.length)
      rw [product_ok d "Tensor::numel overflows size_t" hall]
      show Except.ok d.prod = .ok t.data.length
      rw [← hnp, hlen]

/-- Witness for C2 at `dims = [2, 3]` and a reshape to `[6]`. -/
theorem claim2_witness :
    ((⟨[2, 3], List.replicate 6 0⟩ : Tensor).shape = [2, 3]
      ∧ (⟨[2, 3], List.replicate 6 0⟩ : Tensor).data
          = List.replicate ([2, 3] : Dims).prod 0
      ∧ (⟨[2, 3], List.replicate 6 0⟩ : Tensor).Wf)
    ∧ (((⟨[2, 3], List.replicate 6 0⟩ : Tensor).reshape [6]).2).Wf :=
  ⟨claim2_tensor_invariant.1 [2, 3] ⟨[2, 3], List.replicate 6 0⟩ rfl,
    claim2_tensor_invariant.2 ⟨[2, 3], List.replicate 6 0⟩ rfl [6]⟩

/-- C5: for every valid dimension list `d`, the constructed tensor's `numel`
returns the mathematical product of `d`; and since `numel` recomputes the
count from the current shape on every call, after any successful
`reshape d'` it returns the product of `d'`. -/
theorem claim5_numel_eq_product (dims : Dims) (t : Tensor)
    (h : Tensor.make dims = .ok t) :
    t.numel = .ok dims.prod
    ∧ ∀ (d' : Dims) (t' : Tensor),
        t.reshape d' = (.ok (), t') → t'.numel = .ok d'.prod := by
  obtain ⟨hdims, hdata, hall⟩ := make_ok_inv dims t h
  constructor
  · unfold Tensor.numel
    rw [hdims]
    exact product_ok dims "Tensor::numel overflows size_t" hall
  · intro d' t' hr
    obtain ⟨n, hn, hp, ht'⟩ := reshape_ok_inv t t' d' hr
    obtain ⟨hnp, hall'⟩ :=
      (product_ok_iff d' "Tensor::reshape overflows size_t" n).1 hp
    rw [ht']
    show util.product d' "Tensor::numel overflows size_t" = .ok d'.prod
    exact product_ok d' "Tensor::numel overflows size_t" hall'

/-- Witness for C5 at `dims = [2, 3]` and a reshape to `[6]`. -/
theorem claim5_witness :
    (⟨[2, 3], List.replicate 6 0⟩ : Tensor).numel = .ok ([2, 3] : Dims).prod
    ∧ (⟨[6], List.replicate 6 0⟩ : Tensor).numel = .ok ([6] : Dims).prod :=
  ⟨(claim5_numel_eq_product [2, 3] ⟨[2, 3], List.replicate 6 0⟩ rfl).1,
    (claim5_numel_eq_product [2, 3] ⟨[2, 3], List.replicate 6 0⟩ rfl).2 [6]
      ⟨[6], List.replicate 6 0⟩ rfl⟩

/-- C6: `product(dims)` folds the overflow-checked multiply left to right
starting from 1; it returns the true product when every partial (prefix)
product fits, throws `length_error` as soon as a partial product exceeds
`SIZE_MAX` (in particular `product [2 ^ 32, 2 ^ 32]` fails on the 64-bit
size type), and the signed-`int` overload fails on any dimension list
containing a negative entry. -/
theorem claim6_product_spec (w : String) :
    (∀ dims : List ℕ,
        ((∀ n, (dims.take n).prod ≤ SIZE_MAX) →
            util.product dims w = .ok dims.prod)
        ∧ ((∃ n, SIZE_MAX < (dims.take n).prod) →
            util.product dims w = .error (.lengthError w)))
    ∧ util.product [2 ^ 32, 2 ^ 32] w = .error (.lengthError w)
    ∧ (∀ xs : List ℤ, (∃ x ∈ xs, x < 0) →
        ∃ e, util.productInt xs w = .error e) := by
  refine ⟨fun dims => ⟨product_ok dims w, product_overflow dims w⟩, ?_, ?_⟩
  · exact product_overflow [2 ^ 32, 2 ^ 32] w ⟨2, by decide⟩
  · intro xs hx
    unfold util.productInt
    exact foldl_productInt_neg w xs hx 1

/-- Witness for C6: the empty product is 1, and a negative dimension is
rejected by the signed overload. -/
theorem claim6_witness :
    util.product [] "p" = .ok 1
    ∧ (∃ e, util.productInt [(-1 : ℤ)] "p" = .error e) := by
  constructor
  · have h := ((claim6_product_spec "p").1 []).1
      (by intro n; simp only [List.take_nil, List.prod_nil]; decide)
    simpa using h
  · exact (claim6_product_spec "p").2.2 [(-1 : ℤ)] ⟨-1, by simp, by norm_num⟩

/-- C9: if the element count of the requested new shape overflows `size_t`,
`Tensor::reshape` throws `length_error` — a different error kind than the
`invalid_argument` used for an element-count mismatch — and the tensor's
shape and buffer are unchanged, because the overflow is raised while
computing the new count, before any state is modified. -/
theorem claim9_reshape_overflow_error (t : Tensor) (d'' : Dims) (n : ℕ)
    (h1 : t.numel = .ok n) (h2 : SIZE_MAX < d''.prod) :
    t.reshape d''
        = (.error (.lengthError "Tensor::reshape overflows size_t"), t)
    ∧ FnnError.lengthError "Tensor::reshape overflows size_t"
        ≠ FnnError.invalidArgument "Tensor::reshape: element count must stay constant" := by
  constructor
  · unfold Tensor.reshape
    rw [h1, product_overflow d'' "Tensor::reshape overflows size_t"
      ⟨d''.length, by simpa [List.take_length] using h2⟩]
  · intro h
    exact FnnError.noConfusion h

/-- Witness for C9 at `t = ⟨[2, 3], 6 zeros⟩`, `d'' = [2 ^ 64]`. -/
theorem claim9_witness :
    (⟨[2, 3], List.replicate 6 0⟩ : Tensor).reshape [2 ^ 64]
      = (.error (.lengthError "Tensor::reshape overflows size_t"),
          ⟨[2, 3], List.replicate 6 0⟩) :=
  (claim9_reshape_overflow_error ⟨[2, 3], List.replicate 6 0⟩ [2 ^ 64] 6 rfl
    (by decide)).1

/-- C7 as stated is false for the signed overload: it demands that every pair
of `int`s with a representable mathematical product be returned, but the
code's guard `a != 0 && b > INT_MAX / a` misfires on negative operands —
`multiply(-1, -1)` throws `length_error` (since `INT_MAX / -1 = -INT_MAX < -1`
with C++ truncating division) although `(-1) * (-1) = 1` is representable. -/
theorem claim7_counterexample :
    ¬ (∀ (a b : ℤ) (w : String),
        INT_MIN ≤ a → a ≤ INT_MAX → INT_MIN ≤ b → b ≤ INT_MAX →
        INT_MIN ≤ a * b → a * b ≤ INT_MAX →
        util.multiplyInt a b w = .ok (a * b)) := by
  intro hcl
  have h := hcl (-1) (-1) "m" (by decide) (by decide) (by decide) (by decide)
    (by decide) (by decide)
  have h2 : util.multiplyInt (-1) (-1) "m" = .error (.lengthError "m") := rfl
  rw [h2] at h
  exact Except.noConfusion h

/-- C7 (corrected): the checked multiply fails exactly under the guard
`a != 0 && b > max / a`; this guard is exact — failing precisely when the
mathematical product exceeds the type's maximum, and otherwise returning the
mathematical product — for the unsigned overload on all inputs and for the
signed overload on non-negative operands (the domain used for shape
arithmetic); on negative signed operands the guard is not exact. -/
theorem claim7_amended_multiply_spec (w : String) :
    (∀ a b : ℕ,
        (a * b ≤ SIZE_MAX → util.multiply a b w = .ok (a * b))
        ∧ (SIZE_MAX < a * b → util.multiply a b w = .error (.lengthError w)))
    ∧ (∀ a b : ℤ, 0 ≤ a → 0 ≤ b →
        (a * b ≤ INT_MAX → util.multiplyInt a b w = .ok (a * b))
        ∧ (INT_MAX < a * b →
            util.multiplyInt a b w = .error (.lengthError w))) := by
  constructor
  · intro a b
    constructor
    · intro h
      rw [multiply_eq, if_neg (Nat.not_lt.mpr h)]
    · intro h
      rw [multiply_eq, if_pos h]
  · intro a b ha hb
    rcases eq_or_lt_of_le ha with ha0 | hapos
    · constructor
      · intro _
        unfold util.multiplyInt
        rw [if_neg (fun hc => hc.1 ha0.symm)]
        rw [← ha0, zero_mul]
        exact congrArg Except.ok (by decide)
      · intro h
        rw [← ha0, zero_mul] at h
        exact absurd h (by decide)
    · have htd : Int.tdiv INT_MAX a = INT_MAX / a :=
        Int.tdiv_eq_ediv (by decide) ha
      have hiff : (Int.tdiv INT_MAX a < b) ↔ INT_MAX < a * b := by
        rw [htd, Int.ediv_lt_iff_lt_mul hapos, Int.mul_comm b a]
      constructor
      · intro h
        unfold util.multiplyInt
        rw [if_neg (by rintro ⟨-, hd⟩; exact absurd (hiff.mp hd) (not_lt.mpr h))]
        rw [wrapInt_eq (a * b) (le_trans (by decide) (mul_nonneg ha hb)) h]
      · intro h
        unfold util.multiplyInt
        rw [if_pos ⟨ne_of_gt hapos, hiff.mpr h⟩]

/-- Witness for C7 (corrected) at `a = 6`, `b = 7` in both overloads. -/
theorem claim7_witness :
    util.multiply 6 7 "x" = .ok 42 ∧ util.multiplyInt 6 7 "x" = .ok 42 := by
  constructor
  · have h := ((claim7_amended_multiply_spec "x").1 6 7).1 (by decide)
    simpa using h
  · have h := ((claim7_amended_multiply_spec "x").2 6 7 (by decide) (by decide)).1
      (by decide)
    simpa using h

/-- C8 as stated is false at `t = Tensor2D(0, 0)` with
`(new_rows, new_cols) = (2 ^ 32, 2 ^ 32)`: the mathematical products `0` and
`2 ^ 64` differ, so the claim requires an invalid-argument failure, yet the
code's reshape succeeds because it compares products wrapped mod `2 ^ 64`. -/
theorem claim8_counterexample :
    (Tensor2D.make 0 0).rows * (Tensor2D.make 0 0).cols ≠ 2 ^ 32 * 2 ^ 32
    ∧ (Tensor2D.make 0 0).reshape (2 ^ 32) (2 ^ 32)
        = (.ok (), { rows := 2 ^ 32, cols := 2 ^ 32, data := [] }) :=
  ⟨by decide, rfl⟩

/-- C8 (corrected): restricted to pairs whose mathematical products do not
exceed `SIZE_MAX` (so that the unchecked `size_t` products do not wrap),
`Tensor2D::reshape` throws `invalid_argument` iff the old and new element
counts differ, leaving the tensor unchanged, and otherwise updates only
the row/col metadata, keeping the buffer. -/
theorem claim8_amended_reshape2d (t : Tensor2D) (nr nc : ℕ)
    (h1 : t.rows * t.cols ≤ SIZE_MAX) (h2 : nr * nc ≤ SIZE_MAX) :
    (t.rows * t.cols ≠ nr * nc →
        t.reshape nr nc
          = (.error (.invalidArgument "Tensor2D::reshape: element count must stay constant"),
              t))
    ∧ (t.rows * t.cols = nr * nc →
        t.reshape nr nc
          = (.ok (), { rows := nr, cols := nc, data := t.data })) := by
  have e1 : t.rows * t.cols % 2 ^ 64 = t.rows * t.cols :=
    Nat.mod_eq_of_lt (Nat.lt_of_le_of_lt h1 size_max_lt)
  have e2 : nr * nc % 2 ^ 64 = nr * nc :=
    Nat.mod_eq_of_lt (Nat.lt_of_le_of_lt h2 size_max_lt)
  unfold Tensor2D.reshape
  rw [e1, e2]
  exact ⟨fun hne => by rw [if_pos hne],
    fun heq => by rw [if_neg (fun hne => hne heq)]⟩

/-- Witness for C8 (corrected) at `t = Tensor2D(2, 3)` reshaped to `(3, 2)`. -/
theorem claim8_witness :
    (Tensor2D.make 2 3).reshape 3 2
      = (.ok (), { rows := 3, cols := 2, data := (Tensor2D.make 2 3).data }) :=
  (claim8_amended_reshape2d (Tensor2D.make 2 3) 3 2 (by decide) (by decide)).2
    (by decide)

end fnn
